import Mathlib

/-!
Reconciliation of an Istio VirtualService.

A shallow embedding of `reconciler/resources/istio/virtualservice.go`.

The Go method `VirtualServiceAccessor.ReconcileVirtualService` talks to three
collaborators: the lister (read), the client set (create / update) and the
event recorder.  The embedding passes the lister and the client set as
functions and returns, next to the Go result pair, the ordered list of
effects the call performed (reads, writes, log lines and events).
-/

namespace Istio

/-! ## Data model -/

/-- Go `metav1.OwnerReference`.  `Controller` and `BlockOwnerDeletion` are
`*bool` in Go: `none` is the nil pointer. -/
structure OwnerReference where
  APIVersion : String
  Kind : String
  Name : String
  UID : String
  Controller : Option Bool
  BlockOwnerDeletion : Option Bool
deriving DecidableEq

/-- Go `metav1.TypeMeta`. -/
structure TypeMeta where
  Kind : String
  APIVersion : String
deriving DecidableEq

/-- Go `metav1.ObjectMeta`, restricted to the fields that identify an object,
the metadata a store rewrites on its own, and the owner references. -/
structure ObjectMeta where
  Name : String
  Namespace : String
  UID : String
  ResourceVersion : String
  Labels : List (String × String)
  Annotations : List (String × String)
  OwnerReferences : List OwnerReference
deriving DecidableEq

/-- Go `v1alpha3.VirtualServiceSpec` as far as the sources use it
(`virtualservice_test.go` sets `Hosts` only).  `Hosts` is a Go slice:
`none` is the nil slice, `some []` the empty non-nil slice. -/
structure VirtualServiceSpec where
  Hosts : Option (List String)
deriving DecidableEq

/-- Modelled from the spec: the type declaration of `v1alpha3.VirtualService`
is not among the sources.  The test file builds it from `ObjectMeta` and
`Spec`; the spec's data model also speaks of a status, kept here as an
uninterpreted payload. -/
structure VirtualService where
  TypeMeta : TypeMeta
  ObjectMeta : ObjectMeta
  Spec : VirtualServiceSpec
  Status : String
deriving DecidableEq

/-- The `owner kmeta.Accessor` argument: the parent object, seen through its
accessors `GetName`, `GetNamespace`, `GetUID` and its kind. -/
structure Owner where
  Kind : String
  Namespace : String
  Name : String
  UID : String
deriving DecidableEq

/-- Go `error` values that can flow through the reconciler.
* `status reason message`: an API status error (`*apierrs.StatusError`);
* `errorf format args`: the value built by `fmt.Errorf(format, args...)`,
  kept as the call's arguments rather than as the rendered text;
* `other message`: any other error (transport, cache not synced, ...). -/
inductive Error where
  | status (reason : String) (message : String)
  | errorf (format : String) (args : List String)
  | other (message : String)
deriving DecidableEq

/-- An argument handed to a `printf`-style call. -/
inductive FmtArg where
  | str (s : String)
  | err (e : Error)
deriving DecidableEq

/-- One call of `recorder.Eventf(object, eventtype, reason, messageFmt, args...)`,
recorded by its arguments. -/
structure Event where
  object : Owner
  eventtype : String
  reason : String
  messageFmt : String
  args : List FmtArg
deriving DecidableEq

/-- Go `corev1.EventTypeNormal`. -/
def EventTypeNormal : String := "Normal"

/-- Go `corev1.EventTypeWarning`. -/
def EventTypeWarning : String := "Warning"

/-- Go `metav1.StatusReasonNotFound`. -/
def StatusReasonNotFound : String := "NotFound"

/-! ## Ports -/

/-- What `VirtualServiceLister.VirtualServices(ns).Get(name)` hands back, a Go
pair `(*VirtualService, error)`:
* `ok vs` is `(vs, nil)` with `vs` non-nil;
* `fail vs err` is `(vs, err)` with `err` non-nil (`vs` is nil for the
  generated lister, which returns `nil, errors.NewNotFound(..)`).
The pair `(nil, nil)` is left out: no lister returns it and line 44 would
dereference the nil pointer. -/
inductive GetResult where
  | ok (vs : VirtualService)
  | fail (vs : Option VirtualService) (err : Error)
deriving DecidableEq

/-- The Go pair `(*VirtualService, error)` returned by `Create` and `Update`;
`none` is nil. -/
structure WriteResult where
  vs : Option VirtualService
  err : Option Error
deriving DecidableEq

/-- The read port `istiolisters.VirtualServiceLister`. -/
structure Lister where
  Get : String → String → GetResult

/-- The write port `sharedclientset.Interface`, restricted to
`NetworkingV1alpha3().VirtualServices(ns)`. -/
structure ClientSet where
  Create : String → VirtualService → WriteResult
  Update : String → VirtualService → WriteResult

/-- Go `VirtualServiceAccessor`. -/
structure VirtualServiceAccessor where
  SharedClientSet : ClientSet
  VirtualServiceLister : Lister

/-! ## Effects -/

/-- One observable step of a reconciliation. -/
inductive Effect where
  | get (ns : String) (name : String)
  | create (ns : String) (obj : VirtualService)
  | update (ns : String) (obj : VirtualService)
  | log (msg : String) (err : Error)
  | event (e : Event)
deriving DecidableEq

/-- The Go result pair of `ReconcileVirtualService` together with the effects
performed, oldest first. -/
structure Result where
  vs : Option VirtualService
  err : Option Error
  trace : List Effect
deriving DecidableEq

/-- The `(namespace, object)` arguments of the `Create` calls in a trace. -/
def creates : List Effect → List (String × VirtualService)
  | [] => []
  | Effect.create ns obj :: t => (ns, obj) :: creates t
  | _ :: t => creates t

/-- The `(namespace, object)` arguments of the `Update` calls in a trace. -/
def updates : List Effect → List (String × VirtualService)
  | [] => []
  | Effect.update ns obj :: t => (ns, obj) :: updates t
  | _ :: t => updates t

/-- The events of a trace, in order. -/
def events : List Effect → List Event
  | [] => []
  | Effect.event e :: t => e :: events t
  | _ :: t => events t

/-- The `(namespace, name)` arguments of the lister reads in a trace. -/
def reads : List Effect → List (String × String)
  | [] => []
  | Effect.get ns name :: t => (ns, name) :: reads t
  | _ :: t => reads t

/-! ## Library functions the reconciler calls -/

/-- Go `apierrs.IsNotFound(err)`: the status reason of `err` is `NotFound`.
A nil error and an error that carries no API status have reason unknown. -/
def IsNotFound : Option Error → Bool
  | some (Error.status reason _) => reason == StatusReasonNotFound
  | _ => false

/-- Go `metav1.GetControllerOf(obj)` (k8s.io/apimachinery, `controller_ref.go`):
the first owner reference whose `Controller` pointer is non-nil and true. -/
def GetControllerOf (obj : VirtualService) : Option OwnerReference :=
  obj.ObjectMeta.OwnerReferences.find? (fun ref => ref.Controller == some true)

/-- Go `metav1.IsControlledBy(obj, owner)` (k8s.io/apimachinery,
`controller_ref.go`): `obj` has a controller reference and that reference's
UID is `owner.GetUID()`. -/
def IsControlledBy (obj : VirtualService) (owner : Owner) : Bool :=
  match GetControllerOf obj with
  | none => false
  | some ref => ref.UID == owner.UID

/-- Semantic equality of two Go slices of strings
(`equality.Semantic.DeepEqual`): a nil slice and an empty slice are equal,
otherwise the slices are compared element by element. -/
def semanticSliceEqual (a b : Option (List String)) : Bool :=
  a.getD [] == b.getD []

/-- Go `equality.Semantic.DeepEqual(a, b)` on two `VirtualServiceSpec`s. -/
def SemanticDeepEqual (a b : VirtualServiceSpec) : Bool :=
  semanticSliceEqual a.Hosts b.Hosts

/-- Go `vs.DeepCopy()`: a fresh object with the same value. -/
def DeepCopy (vs : VirtualService) : VirtualService := vs

/-! ## The reconciler -/

/-- Go `(*VirtualServiceAccessor).ReconcileVirtualService(ctx, owner, desired, recorder)`
(`virtualservice.go`, lines 27 to 59). -/
def ReconcileVirtualService (v : VirtualServiceAccessor) (owner : Owner)
    (desired : VirtualService) : Result :=
  let ns := desired.ObjectMeta.Namespace
  let name := desired.ObjectMeta.Name
  match v.VirtualServiceLister.Get ns name with
  | GetResult.fail vs err =>
    if IsNotFound (some err) then
      -- `_, err = ...Create(desired)`: the stored object is dropped
      match (v.SharedClientSet.Create ns desired).err with
      | some err =>
        { vs := none, err := some err,
          trace := [Effect.get ns name, Effect.create ns desired,
            Effect.log "Failed to create VirtualService" err,
            Effect.event ⟨owner, EventTypeWarning, "CreationFailed",
              "Failed to create VirtualService %q/%q: %v",
              [FmtArg.str ns, FmtArg.str name, FmtArg.err err]⟩] }
      | none =>
        -- falls through to `return vs, nil` with the lister's `vs`
        { vs := vs, err := none,
          trace := [Effect.get ns name, Effect.create ns desired,
            Effect.event ⟨owner, EventTypeNormal, "Created",
              "Created VirtualService %q", [FmtArg.str desired.ObjectMeta.Name]⟩] }
    else
      { vs := none, err := some err, trace := [Effect.get ns name] }
  | GetResult.ok vs =>
    if !IsControlledBy vs owner then
      { vs := none,
        err := some (Error.errorf "ingress: %q does not own VirtualService: %q"
          [owner.Name, name]),
        trace := [Effect.get ns name] }
    else if !SemanticDeepEqual vs.Spec desired.Spec then
      let existing := { DeepCopy vs with Spec := desired.Spec }
      let w := v.SharedClientSet.Update ns existing
      match w.err with
      | some err =>
        { vs := none, err := some err,
          trace := [Effect.get ns name, Effect.update ns existing,
            Effect.log "Failed to update VirtualService" err] }
      | none =>
        { vs := w.vs, err := none,
          trace := [Effect.get ns name, Effect.update ns existing,
            Effect.event ⟨owner, EventTypeNormal, "Updated",
              "Updated status for VirtualService %q/%q",
              [FmtArg.str ns, FmtArg.str name]⟩] }
    else
      { vs := some vs, err := none, trace := [Effect.get ns name] }

/-! ## Fixtures of `virtualservice_test.go` -/

/-- The test's `ownerObj`: Service `ownerObj` in `default`, UID `abcd`
(its `TypeMeta` is unset, so the kind is empty). -/
def ownerObj : Owner :=
  { Kind := "", Namespace := "default", Name := "ownerObj", UID := "abcd" }

/-- The test's `ownerRef`. -/
def ownerRef : OwnerReference :=
  { APIVersion := "", Kind := ownerObj.Kind, Name := ownerObj.Name, UID := ownerObj.UID,
    Controller := some true, BlockOwnerDeletion := none }

/-- Object metadata of the test's `vs` in `default`, with the given owner references. -/
def vsMeta (refs : List OwnerReference) : ObjectMeta :=
  { Name := "vs", Namespace := "default", UID := "", ResourceVersion := "",
    Labels := [], Annotations := [], OwnerReferences := refs }

/-- The test's `origin`. -/
def origin : VirtualService :=
  { TypeMeta := ⟨"", ""⟩, ObjectMeta := vsMeta [ownerRef],
    Spec := { Hosts := some ["origin.example.com"] }, Status := "" }

/-- The test's `desired`. -/
def desired : VirtualService :=
  { TypeMeta := ⟨"", ""⟩, ObjectMeta := vsMeta [ownerRef],
    Spec := { Hosts := some ["desired.example.com"] }, Status := "" }

/-- A `vs` in `default` with the desired hosts and no owner reference. -/
def orphan : VirtualService :=
  { TypeMeta := ⟨"", ""⟩, ObjectMeta := vsMeta [],
    Spec := { Hosts := some ["desired.example.com"] }, Status := "" }

/-- The error of `errors.NewNotFound(v1alpha3.Resource("virtualservice"), name)`. -/
def notFound (name : String) : Error :=
  Error.status StatusReasonNotFound name

/-- A client set whose writes succeed and hand back the submitted object. -/
def acceptingClient : ClientSet :=
  { Create := fun _ obj => ⟨some obj, none⟩, Update := fun _ obj => ⟨some obj, none⟩ }

/-- A client set whose writes fail with `e`. -/
def rejectingClient (e : Error) : ClientSet :=
  { Create := fun _ _ => ⟨none, some e⟩, Update := fun _ _ => ⟨none, some e⟩ }

/-- The generated lister over an indexer holding `store`: the first object
with the asked namespace and name, or `nil, NewNotFound(..)`. -/
def listerOf (store : List VirtualService) : Lister :=
  { Get := fun ns name =>
      match store.find? (fun o => o.ObjectMeta.Namespace == ns && o.ObjectMeta.Name == name) with
      | some o => GetResult.ok o
      | none => GetResult.fail none (notFound name) }

/-- The test's `setup`: an accessor over the given stored objects. -/
def setup (store : List VirtualService) (client : ClientSet) : VirtualServiceAccessor :=
  { SharedClientSet := client, VirtualServiceLister := listerOf store }

/-- An accessor whose lister fails with a cache error that is not a not-found. -/
def unsynced (client : ClientSet) : VirtualServiceAccessor :=
  { SharedClientSet := client,
    VirtualServiceLister := { Get := fun _ _ => GetResult.fail none (Error.other "cache not synced") } }

/-- The test's `origin` after status and metadata churn: another resource
version, a label, an annotation and a status, with the same spec and the same
owner references. -/
def originChurned : VirtualService :=
  { TypeMeta := ⟨"VirtualService", "networking.istio.io/v1alpha3"⟩,
    ObjectMeta :=
      { Name := "vs", Namespace := "default", UID := "1234", ResourceVersion := "42",
        Labels := [("app", "demo")], Annotations := [("note", "touched")],
        OwnerReferences := [ownerRef] },
    Spec := { Hosts := some ["origin.example.com"] }, Status := "Ready" }

/-- A controller reference to Deployment `someoneElse` with the given UID. -/
def foreignRef (uid : String) : OwnerReference :=
  { APIVersion := "apps/v1", Kind := "Deployment", Name := "someoneElse", UID := uid,
    Controller := some true, BlockOwnerDeletion := none }

/-- A `vs` whose only owner reference is a controller reference with the UID
of `ownerObj` but another kind and name. -/
def sameUidOtherName : VirtualService :=
  { TypeMeta := ⟨"", ""⟩,
    ObjectMeta := vsMeta [foreignRef "abcd"],
    Spec := { Hosts := some ["desired.example.com"] }, Status := "" }

/-- A `vs` with two controller references: a foreign one first, then `ownerRef`. -/
def twoControllers : VirtualService :=
  { TypeMeta := ⟨"", ""⟩,
    ObjectMeta := vsMeta [foreignRef "zzzz", ownerRef],
    Spec := { Hosts := some ["desired.example.com"] }, Status := "" }

/-! ## The reconciler over a heap

`ReconcileVirtualService` above works on values.  To speak about mutation the
same Go code is embedded once more with `desired`, the lister's object and the
copy made on line 49 as pointers into a heap of objects. -/

/-- A Go heap of `VirtualService` objects: the pointer `p` points at `h[p]`;
a pointer outside the heap is nil or dangling. -/
abbrev Heap := List VirtualService

/-- Allocation of a new object holding `o`: its pointer and the heap after. -/
def alloc (h : Heap) (o : VirtualService) : Nat × Heap :=
  (h.length, h ++ [o])

/-- The object a client call hands back, allocated by the client: the pointer
it returns (nil when it returns no object) and the heap after. -/
def allocResult (h : Heap) (o : Option VirtualService) : Option Nat × Heap :=
  match o with
  | none => (none, h)
  | some x => (some h.length, h ++ [x])

/-- The Go assignment `p.Spec = spec`: a store into the field `Spec` of the
object `p` points at. -/
def storeSpec (h : Heap) (p : Nat) (spec : VirtualServiceSpec) : Heap :=
  match h[p]? with
  | some o => h.set p { o with Spec := spec }
  | none => h

/-- What the lister hands back, as Go pointers: `ok p` is `(p, nil)`,
`fail p err` is `(p, err)` where `p` may be nil. -/
inductive GetPtr where
  | ok (p : Nat)
  | fail (p : Option Nat) (err : Error)
deriving DecidableEq

/-- The Go result pair of the reconciler as a pointer and an error, with the
heap the call leaves behind. -/
structure HeapResult where
  vs : Option Nat
  err : Option Error
  heap : Heap
deriving DecidableEq

/-- Go `ReconcileVirtualService` (`virtualservice.go`, lines 27 to 59) over a
heap.  `desired` is the caller's pointer, `get` the lister returning pointers
into its cache, `client` the client set, which reads the object it is handed
and allocates the object it returns.  The result is `none` when the code
dereferences a pointer that points at nothing. -/
def ReconcileVirtualServiceOnHeap (get : String → String → GetPtr) (client : ClientSet)
    (owner : Owner) (desired : Nat) (h : Heap) : Option HeapResult :=
  match h[desired]? with
  | none => none
  | some d =>
    let ns := d.ObjectMeta.Namespace
    let name := d.ObjectMeta.Name
    match get ns name with
    | GetPtr.fail vs err =>
      if IsNotFound (some err) then
        let w := client.Create ns d
        let h1 := (allocResult h w.vs).2
        match w.err with
        | some err => some { vs := none, err := some err, heap := h1 }
        | none => some { vs := vs, err := none, heap := h1 }
      else
        some { vs := none, err := some err, heap := h }
    | GetPtr.ok vs =>
      match h[vs]? with
      | none => none
      | some obs =>
        if !IsControlledBy obs owner then
          some { vs := none,
                 err := some (Error.errorf "ingress: %q does not own VirtualService: %q"
                   [owner.Name, name]),
                 heap := h }
        else if !SemanticDeepEqual obs.Spec d.Spec then
          -- `existing := vs.DeepCopy()`
          let existing := (alloc h (DeepCopy obs)).1
          let h1 := (alloc h (DeepCopy obs)).2
          -- `existing.Spec = desired.Spec`
          match h1[desired]? with
          | none => none
          | some d1 =>
            let h2 := storeSpec h1 existing d1.Spec
            match h2[existing]? with
            | none => none
            | some submitted =>
              let w := client.Update ns submitted
              let r := allocResult h2 w.vs
              match w.err with
              | some err => some { vs := none, err := some err, heap := r.2 }
              | none => some { vs := r.1, err := none, heap := r.2 }
        else
          some { vs := some vs, err := none, heap := h }

/-- The objects a pointer-level lister answer points at, as the value-level
answer; `none` when a non-nil pointer in it points at nothing. -/
def derefGet (h : Heap) : GetPtr → Option GetResult
  | GetPtr.ok p => h[p]?.map GetResult.ok
  | GetPtr.fail none err => some (GetResult.fail none err)
  | GetPtr.fail (some p) err => h[p]?.map (fun o => GetResult.fail (some o) err)

/-- A heap with the test's `desired` at pointer 0 and the test's `origin`, the
lister's cached object, at pointer 1. -/
def testHeap : Heap := [desired, origin]

/-- A lister whose cache holds the object at pointer 1. -/
def testHeapLister : String → String → GetPtr :=
  fun _ _ => GetPtr.ok 1

/-! ## Notions used to state the properties -/

/-- Ownership in the words of the specification: the owner-reference list of
`obs` contains an entry whose controller flag is true and whose kind, name
and unique id are those of `owner`. -/
def ownedPerSpec (obs : VirtualService) (owner : Owner) : Bool :=
  obs.ObjectMeta.OwnerReferences.any (fun ref =>
    ref.Controller == some true && ref.Kind == owner.Kind && ref.Name == owner.Name
      && ref.UID == owner.UID)

/-- The outcome of line 46: after the read and nothing else, a nil object and
the error `fmt.Errorf("ingress: %q does not own VirtualService: %q", owner.GetName(), name)`. -/
def ownershipConflict (owner : Owner) (d : VirtualService) : Result :=
  { vs := none,
    err := some (Error.errorf "ingress: %q does not own VirtualService: %q"
      [owner.Name, d.ObjectMeta.Name]),
    trace := [Effect.get d.ObjectMeta.Namespace d.ObjectMeta.Name] }

/-- The stage of a reconciliation an effect belongs to: the read is stage 0,
a write (`Create` or `Update`) stage 1, an event stage 2; a log line belongs
to no stage. -/
def phase : Effect → Option Nat
  | Effect.get _ _ => some 0
  | Effect.create _ _ => some 1
  | Effect.update _ _ => some 1
  | Effect.event _ => some 2
  | Effect.log _ _ => none

/-! ## Theorems -/

/-- C1 (create when absent): when the lister reports not-found for
`(desired.Namespace, desired.Name)`, the reconciler calls `Create` exactly
once, with `desired` itself, never calls `Update`, and, when that `Create`
succeeds, emits exactly one event, of type Normal with reason "Created". -/
theorem reconcile_absent_creates_once (v : VirtualServiceAccessor) (owner : Owner)
    (d : VirtualService) (vs : Option VirtualService) (e : Error)
    (hget : v.VirtualServiceLister.Get d.ObjectMeta.Namespace d.ObjectMeta.Name
      = GetResult.fail vs e)
    (hnf : IsNotFound (some e) = true) :
    creates (ReconcileVirtualService v owner d).trace = [(d.ObjectMeta.Namespace, d)]
    ∧ updates (ReconcileVirtualService v owner d).trace = []
    ∧ ((v.SharedClientSet.Create d.ObjectMeta.Namespace d).err = none →
        ∃ ev, events (ReconcileVirtualService v owner d).trace = [ev]
          ∧ ev.eventtype = "Normal" ∧ ev.reason = "Created") := by
  unfold ReconcileVirtualService
  simp only [hget, hnf, if_true]
  cases hc : (v.SharedClientSet.Create d.ObjectMeta.Namespace d).err with
  | none => simp [creates, updates, events, EventTypeNormal]
  | some err => simp [creates, updates, events]

/-- Witness for C1 on the test's scenario (a): empty store, accepting client. -/
theorem reconcile_absent_creates_once_witness :
    (setup [] acceptingClient).VirtualServiceLister.Get "default" "vs"
      = GetResult.fail none (notFound "vs")
    ∧ IsNotFound (some (notFound "vs")) = true
    ∧ ((setup [] acceptingClient).SharedClientSet.Create "default" desired).err = none
    ∧ creates (ReconcileVirtualService (setup [] acceptingClient) ownerObj desired).trace
      = [("default", desired)]
    ∧ updates (ReconcileVirtualService (setup [] acceptingClient) ownerObj desired).trace = []
    ∧ ∃ ev, events (ReconcileVirtualService (setup [] acceptingClient) ownerObj desired).trace
          = [ev]
        ∧ ev.eventtype = "Normal" ∧ ev.reason = "Created" :=
  have h := reconcile_absent_creates_once (setup [] acceptingClient) ownerObj desired none
    (notFound "vs") rfl (by decide)
  ⟨rfl, by decide, rfl, h.1, h.2.1, h.2.2 rfl⟩

/-- C2 (evaluation at the failing input): on the test's scenario (a), empty
store and a `Create` that succeeds and hands back the stored object, the
reconciler returns the pair `(nil, nil)`: the object handed back by `Create`
is not what it returns. -/
theorem reconcile_create_returns_nil :
    (acceptingClient.Create "default" desired).vs = some desired
    ∧ (acceptingClient.Create "default" desired).err = none
    ∧ (ReconcileVirtualService (setup [] acceptingClient) ownerObj desired).vs = none
    ∧ (ReconcileVirtualService (setup [] acceptingClient) ownerObj desired).err = none :=
  ⟨rfl, rfl, rfl, rfl⟩

/-- C3 (update when divergent): when the lister returns an observed object
controlled by `owner` whose spec is not semantically equal to the desired
spec, the reconciler calls `Update` exactly once and `Create` never; the
object submitted has the desired spec and the observed object's type
metadata, object metadata (name, namespace, owner references, ...) and
status; and when `Update` succeeds exactly one event is emitted, of type
Normal with reason "Updated", and the object returned by `Update` is returned
with a nil error. -/
theorem reconcile_divergent_updates_once (v : VirtualServiceAccessor) (owner : Owner)
    (d obs : VirtualService)
    (hget : v.VirtualServiceLister.Get d.ObjectMeta.Namespace d.ObjectMeta.Name
      = GetResult.ok obs)
    (hown : IsControlledBy obs owner = true)
    (hne : SemanticDeepEqual obs.Spec d.Spec = false) :
    ∃ existing,
      updates (ReconcileVirtualService v owner d).trace = [(d.ObjectMeta.Namespace, existing)]
      ∧ creates (ReconcileVirtualService v owner d).trace = []
      ∧ existing.Spec = d.Spec
      ∧ existing.TypeMeta = obs.TypeMeta
      ∧ existing.ObjectMeta = obs.ObjectMeta
      ∧ existing.Status = obs.Status
      ∧ ((v.SharedClientSet.Update d.ObjectMeta.Namespace existing).err = none →
          (∃ ev, events (ReconcileVirtualService v owner d).trace = [ev]
            ∧ ev.eventtype = "Normal" ∧ ev.reason = "Updated")
          ∧ (ReconcileVirtualService v owner d).vs
            = (v.SharedClientSet.Update d.ObjectMeta.Namespace existing).vs
          ∧ (ReconcileVirtualService v owner d).err = none) := by
  refine ⟨{ DeepCopy obs with Spec := d.Spec }, ?_⟩
  unfold ReconcileVirtualService
  simp only [hget, hown, hne, Bool.not_true, Bool.not_false, if_true, Bool.false_eq_true,
    if_false]
  cases hu : (v.SharedClientSet.Update d.ObjectMeta.Namespace
      { DeepCopy obs with Spec := d.Spec }).err with
  | none => simp [creates, updates, events, EventTypeNormal, DeepCopy]
  | some err => simp [creates, updates, DeepCopy]

/-- Witness for C3 on the test's scenario (b): the store holds `origin`,
owned by `ownerObj`, with hosts `origin.example.com`. -/
theorem reconcile_divergent_updates_once_witness :
    IsControlledBy origin ownerObj = true
    ∧ SemanticDeepEqual origin.Spec desired.Spec = false
    ∧ ∃ existing,
      updates (ReconcileVirtualService (setup [origin] acceptingClient) ownerObj desired).trace
        = [("default", existing)]
      ∧ creates (ReconcileVirtualService (setup [origin] acceptingClient) ownerObj desired).trace
        = []
      ∧ existing.Spec = desired.Spec
      ∧ existing.TypeMeta = origin.TypeMeta
      ∧ existing.ObjectMeta = origin.ObjectMeta
      ∧ existing.Status = origin.Status
      ∧ (((setup [origin] acceptingClient).SharedClientSet.Update "default" existing).err = none →
          (∃ ev, events
              (ReconcileVirtualService (setup [origin] acceptingClient) ownerObj desired).trace
              = [ev]
            ∧ ev.eventtype = "Normal" ∧ ev.reason = "Updated")
          ∧ (ReconcileVirtualService (setup [origin] acceptingClient) ownerObj desired).vs
            = ((setup [origin] acceptingClient).SharedClientSet.Update "default" existing).vs
          ∧ (ReconcileVirtualService (setup [origin] acceptingClient) ownerObj desired).err
            = none) :=
  ⟨by decide, by decide,
    reconcile_divergent_updates_once (setup [origin] acceptingClient) ownerObj desired origin
      (by decide) (by decide) (by decide)⟩

/-- C4 (no-op when equal): when the lister returns an observed object
controlled by `owner` whose spec is semantically equal to the desired spec,
the reconciler performs no `Create`, no `Update`, emits no event, and returns
the observed object itself with a nil error. -/
theorem reconcile_equal_is_noop (v : VirtualServiceAccessor) (owner : Owner)
    (d obs : VirtualService)
    (hget : v.VirtualServiceLister.Get d.ObjectMeta.Namespace d.ObjectMeta.Name
      = GetResult.ok obs)
    (hown : IsControlledBy obs owner = true)
    (heq : SemanticDeepEqual obs.Spec d.Spec = true) :
    creates (ReconcileVirtualService v owner d).trace = []
    ∧ updates (ReconcileVirtualService v owner d).trace = []
    ∧ events (ReconcileVirtualService v owner d).trace = []
    ∧ (ReconcileVirtualService v owner d).vs = some obs
    ∧ (ReconcileVirtualService v owner d).err = none := by
  unfold ReconcileVirtualService
  simp [hget, hown, heq, creates, updates, events]

/-- Witness for C4: the store already holds `desired`. -/
theorem reconcile_equal_is_noop_witness :
    IsControlledBy desired ownerObj = true
    ∧ SemanticDeepEqual desired.Spec desired.Spec = true
    ∧ creates (ReconcileVirtualService (setup [desired] acceptingClient) ownerObj desired).trace
      = []
    ∧ updates (ReconcileVirtualService (setup [desired] acceptingClient) ownerObj desired).trace
      = []
    ∧ events (ReconcileVirtualService (setup [desired] acceptingClient) ownerObj desired).trace
      = []
    ∧ (ReconcileVirtualService (setup [desired] acceptingClient) ownerObj desired).vs
      = some desired
    ∧ (ReconcileVirtualService (setup [desired] acceptingClient) ownerObj desired).err = none :=
  ⟨by decide, by decide,
    reconcile_equal_is_noop (setup [desired] acceptingClient) ownerObj desired desired
      (by decide) (by decide) (by decide)⟩

/-- C5 (ownership is enforced): when the lister returns an observed object
that `owner` does not control (its controller reference is not `owner`, or it
has none), the reconciler performs no `Create`, no `Update`, emits no event,
returns a nil object, and returns the error
`fmt.Errorf("ingress: %q does not own VirtualService: %q", owner.GetName(), name)`,
whose arguments are the owner's name and the desired object's name. -/
theorem reconcile_foreign_is_conflict (v : VirtualServiceAccessor) (owner : Owner)
    (d obs : VirtualService)
    (hget : v.VirtualServiceLister.Get d.ObjectMeta.Namespace d.ObjectMeta.Name
      = GetResult.ok obs)
    (hnot : IsControlledBy obs owner = false) :
    creates (ReconcileVirtualService v owner d).trace = []
    ∧ updates (ReconcileVirtualService v owner d).trace = []
    ∧ events (ReconcileVirtualService v owner d).trace = []
    ∧ (ReconcileVirtualService v owner d).vs = none
    ∧ (ReconcileVirtualService v owner d).err
      = some (Error.errorf "ingress: %q does not own VirtualService: %q"
          [owner.Name, d.ObjectMeta.Name]) := by
  unfold ReconcileVirtualService
  simp [hget, hnot, creates, updates, events]

/-- Witness for C5: the store holds a `vs` that carries no owner reference. -/
theorem reconcile_foreign_is_conflict_witness :
    IsControlledBy orphan ownerObj = false
    ∧ creates (ReconcileVirtualService (setup [orphan] acceptingClient) ownerObj desired).trace
      = []
    ∧ updates (ReconcileVirtualService (setup [orphan] acceptingClient) ownerObj desired).trace
      = []
    ∧ events (ReconcileVirtualService (setup [orphan] acceptingClient) ownerObj desired).trace
      = []
    ∧ (ReconcileVirtualService (setup [orphan] acceptingClient) ownerObj desired).vs = none
    ∧ (ReconcileVirtualService (setup [orphan] acceptingClient) ownerObj desired).err
      = some (Error.errorf "ingress: %q does not own VirtualService: %q" ["ownerObj", "vs"]) :=
  ⟨by decide,
    reconcile_foreign_is_conflict (setup [orphan] acceptingClient) ownerObj desired orphan
      (by decide) (by decide)⟩

/-- The controller reference found by `GetControllerOf`, spelled out on the
owner-reference list: `IsControlledBy obs owner` holds exactly when the first
entry whose controller flag is true carries the owner's UID. -/
theorem isControlledBy_iff (obs : VirtualService) (owner : Owner) :
    IsControlledBy obs owner = true ↔
      ∃ pre ref post, obs.ObjectMeta.OwnerReferences = pre ++ ref :: post
        ∧ (∀ r ∈ pre, r.Controller ≠ some true)
        ∧ ref.Controller = some true ∧ ref.UID = owner.UID := by
  unfold IsControlledBy GetControllerOf
  constructor
  · intro h
    cases hf : obs.ObjectMeta.OwnerReferences.find? (fun ref => ref.Controller == some true) with
    | none => simp [hf] at h
    | some ref =>
      simp only [hf, beq_iff_eq] at h
      obtain ⟨hp, pre, post, hsplit, hpre⟩ := List.find?_eq_some.mp hf
      refine ⟨pre, ref, post, hsplit, ?_, by simpa using hp, h⟩
      intro r hr hc
      have := hpre r hr
      simp [hc] at this
  · rintro ⟨pre, ref, post, hsplit, hpre, hc, hu⟩
    have hf : obs.ObjectMeta.OwnerReferences.find? (fun ref => ref.Controller == some true)
        = some ref := by
      rw [List.find?_eq_some]
      refine ⟨by simp [hc], pre, post, hsplit, ?_⟩
      intro a ha
      have := hpre a ha
      simp [this]
    simp [hf, hu]

/-- The reconciler stops with the ownership conflict exactly when
`IsControlledBy` is false on the observed object. -/
theorem conflict_iff_not_controlled (v : VirtualServiceAccessor) (owner : Owner)
    (d obs : VirtualService)
    (hget : v.VirtualServiceLister.Get d.ObjectMeta.Namespace d.ObjectMeta.Name
      = GetResult.ok obs) :
    ReconcileVirtualService v owner d = ownershipConflict owner d ↔
      IsControlledBy obs owner = false := by
  unfold ReconcileVirtualService ownershipConflict
  simp only [hget]
  cases hown : IsControlledBy obs owner with
  | false => simp
  | true =>
    cases heq : SemanticDeepEqual obs.Spec d.Spec with
    | true => simp
    | false =>
      simp only [Bool.not_true, Bool.not_false, Bool.false_eq_true, if_false, if_true]
      cases hu : (v.SharedClientSet.Update d.ObjectMeta.Namespace
          { DeepCopy obs with Spec := d.Spec }).err with
      | none => simp
      | some err => simp

/-- C6 (counterexample): ownership as the specification words it is not what
the reconciler checks.  An observed object whose controller reference has the
owner's UID but another kind and name is treated as owned (no conflict),
and one that lists a foreign controller reference before the owner's is
refused although the list contains the owner's controller reference. -/
theorem owned_per_spec_differs :
    (ownedPerSpec sameUidOtherName ownerObj = false
      ∧ ReconcileVirtualService (setup [sameUidOtherName] acceptingClient) ownerObj desired
        ≠ ownershipConflict ownerObj desired)
    ∧ (ownedPerSpec twoControllers ownerObj = true
      ∧ ReconcileVirtualService (setup [twoControllers] acceptingClient) ownerObj desired
        = ownershipConflict ownerObj desired) :=
  ⟨⟨by decide, by decide⟩, by decide, by decide⟩

/-- C6 (amended): the reconciler treats an observed object as owned (it does
not stop with the ownership conflict) if and only if the first entry of the
object's owner-reference list whose controller flag is true exists and
carries the owner's unique id; kind and name are not compared. -/
theorem owned_iff_first_controller_uid (v : VirtualServiceAccessor) (owner : Owner)
    (d obs : VirtualService)
    (hget : v.VirtualServiceLister.Get d.ObjectMeta.Namespace d.ObjectMeta.Name
      = GetResult.ok obs) :
    ReconcileVirtualService v owner d ≠ ownershipConflict owner d ↔
      ∃ pre ref post, obs.ObjectMeta.OwnerReferences = pre ++ ref :: post
        ∧ (∀ r ∈ pre, r.Controller ≠ some true)
        ∧ ref.Controller = some true ∧ ref.UID = owner.UID := by
  rw [← isControlledBy_iff, Ne, conflict_iff_not_controlled v owner d obs hget]
  simp

/-- Witness for C6 (amended): the test's `origin`, whose first controller
reference is `ownerRef`. -/
theorem owned_iff_first_controller_uid_witness :
    (setup [origin] acceptingClient).VirtualServiceLister.Get "default" "vs"
      = GetResult.ok origin
    ∧ (ReconcileVirtualService (setup [origin] acceptingClient) ownerObj desired
        ≠ ownershipConflict ownerObj desired ↔
      ∃ pre ref post, origin.ObjectMeta.OwnerReferences = pre ++ ref :: post
        ∧ (∀ r ∈ pre, r.Controller ≠ some true)
        ∧ ref.Controller = some true ∧ ref.UID = ownerObj.UID) :=
  ⟨by decide,
    owned_iff_first_controller_uid (setup [origin] acceptingClient) ownerObj desired origin
      (by decide)⟩

/-- Semantic equality of slices is reflexive. -/
theorem semanticDeepEqual_refl (a : VirtualServiceSpec) : SemanticDeepEqual a a = true := by
  simp [SemanticDeepEqual, semanticSliceEqual]

/-- C7 (counterexample): a desired object that carries no owner reference is
created by the first call (nil error, one `Create` of it); when the lister
then returns that very object, the second call with the same owner and
desired object is not a no-op but stops with the ownership conflict.  The
same happens for a desired object that does carry the owner's controller
reference, but behind a foreign controller reference. -/
theorem second_call_conflicts_without_owner_ref :
    ((ReconcileVirtualService (setup [] acceptingClient) ownerObj orphan).err = none
      ∧ creates (ReconcileVirtualService (setup [] acceptingClient) ownerObj orphan).trace
        = [("default", orphan)]
      ∧ (setup [orphan] acceptingClient).VirtualServiceLister.Get "default" "vs"
        = GetResult.ok orphan
      ∧ (ReconcileVirtualService (setup [orphan] acceptingClient) ownerObj orphan).vs = none
      ∧ (ReconcileVirtualService (setup [orphan] acceptingClient) ownerObj orphan).err
        = some (Error.errorf "ingress: %q does not own VirtualService: %q" ["ownerObj", "vs"]))
    ∧ (ownerRef ∈ twoControllers.ObjectMeta.OwnerReferences
      ∧ (ReconcileVirtualService (setup [] acceptingClient) ownerObj twoControllers).err = none
      ∧ creates (ReconcileVirtualService (setup [] acceptingClient) ownerObj twoControllers).trace
        = [("default", twoControllers)]
      ∧ (setup [twoControllers] acceptingClient).VirtualServiceLister.Get "default" "vs"
        = GetResult.ok twoControllers
      ∧ ReconcileVirtualService (setup [twoControllers] acceptingClient) ownerObj twoControllers
        = ownershipConflict ownerObj twoControllers) :=
  ⟨⟨by decide, by decide, by decide, by decide, by decide⟩,
    by decide, by decide, by decide, by decide, by decide⟩

/-- C7 (amended, idempotence): if a first call returns a nil error after
submitting `w` to `Update`, or after submitting `w` to `Create` with a desired
object on which `metav1.IsControlledBy(desired, owner)` holds (the first entry
of its owner-reference list whose controller flag is true carries the owner's
UID; carrying the owner's controller reference further down the list is not
enough), and the lister then returns exactly `w`, a second call with the same
owner and desired object is a no-op: the read only, no write, no event, a nil
error, and `w` returned.  This holds for any desired spec. -/
theorem reconcile_twice_is_noop (v1 v2 : VirtualServiceAccessor) (owner : Owner)
    (d w : VirtualService)
    (hok : (ReconcileVirtualService v1 owner d).err = none)
    (hwrote : ((d.ObjectMeta.Namespace, w) ∈ creates (ReconcileVirtualService v1 owner d).trace
        ∧ IsControlledBy d owner = true)
      ∨ (d.ObjectMeta.Namespace, w) ∈ updates (ReconcileVirtualService v1 owner d).trace)
    (hget : v2.VirtualServiceLister.Get d.ObjectMeta.Namespace d.ObjectMeta.Name
      = GetResult.ok w) :
    ReconcileVirtualService v2 owner d
      = { vs := some w, err := none,
          trace := [Effect.get d.ObjectMeta.Namespace d.ObjectMeta.Name] } := by
  have key : IsControlledBy w owner = true ∧ SemanticDeepEqual w.Spec d.Spec = true := by
    unfold ReconcileVirtualService at hok hwrote
    cases h1 : v1.VirtualServiceLister.Get d.ObjectMeta.Namespace d.ObjectMeta.Name with
    | fail vs err =>
      simp only [h1] at hok hwrote
      cases hnf : IsNotFound (some err) with
      | false => simp [hnf, creates, updates] at hwrote
      | true =>
        simp only [hnf, if_true] at hok hwrote
        cases hc : (v1.SharedClientSet.Create d.ObjectMeta.Namespace d).err with
        | some e => simp [hc] at hok
        | none =>
          simp only [hc, creates, updates, List.mem_singleton, Prod.mk.injEq, true_and,
            List.not_mem_nil, or_false] at hwrote
          obtain ⟨hw, hd⟩ := hwrote
          subst hw
          exact ⟨hd, semanticDeepEqual_refl _⟩
    | ok obs =>
      simp only [h1] at hok hwrote
      cases hown : IsControlledBy obs owner with
      | false => simp [hown] at hok
      | true =>
        cases heq : SemanticDeepEqual obs.Spec d.Spec with
        | true => simp [hown, heq, creates, updates] at hwrote
        | false =>
          simp only [hown, heq, Bool.not_true, Bool.not_false, Bool.false_eq_true, if_false,
            if_true] at hok hwrote
          cases hu : (v1.SharedClientSet.Update d.ObjectMeta.Namespace
              { DeepCopy obs with Spec := d.Spec }).err with
          | some e => simp [hu] at hok
          | none =>
            simp only [hu, creates, updates, List.mem_singleton, Prod.mk.injEq, true_and,
              List.not_mem_nil, false_and, false_or] at hwrote
            subst hwrote
            refine ⟨?_, semanticDeepEqual_refl _⟩
            simpa [IsControlledBy, GetControllerOf, DeepCopy] using hown
  unfold ReconcileVirtualService
  simp [hget, key.1, key.2]

/-- Witness for C7 (amended), on both paths: the test's scenario (a), where
the first call creates `desired`, and the test's scenario (b), where the first
call updates `origin` into `desired`; each is followed by a second call
against a store that holds the written object. -/
theorem reconcile_twice_is_noop_witness :
    ((ReconcileVirtualService (setup [] acceptingClient) ownerObj desired).err = none
      ∧ ("default", desired)
        ∈ creates (ReconcileVirtualService (setup [] acceptingClient) ownerObj desired).trace
      ∧ IsControlledBy desired ownerObj = true
      ∧ (setup [desired] acceptingClient).VirtualServiceLister.Get "default" "vs"
        = GetResult.ok desired
      ∧ ReconcileVirtualService (setup [desired] acceptingClient) ownerObj desired
        = { vs := some desired, err := none, trace := [Effect.get "default" "vs"] })
    ∧ ((ReconcileVirtualService (setup [origin] acceptingClient) ownerObj desired).err = none
      ∧ ("default", desired)
        ∈ updates (ReconcileVirtualService (setup [origin] acceptingClient) ownerObj desired).trace
      ∧ ReconcileVirtualService (setup [desired] (rejectingClient (Error.other "unused")))
          ownerObj desired
        = { vs := some desired, err := none, trace := [Effect.get "default" "vs"] }) :=
  ⟨⟨by decide, by decide, by decide, by decide,
      reconcile_twice_is_noop (setup [] acceptingClient) (setup [desired] acceptingClient)
        ownerObj desired desired (by decide) (Or.inl ⟨by decide, by decide⟩) (by decide)⟩,
    by decide, by decide,
    reconcile_twice_is_noop (setup [origin] acceptingClient)
      (setup [desired] (rejectingClient (Error.other "unused")))
      ownerObj desired desired (by decide) (Or.inr (by decide)) (by decide)⟩

/-- C8 (counterexample): on the test's scenario (b) with an `Update` that
fails, the reconciler returns the error and emits no event at all, hence no
Warning event. -/
theorem update_failure_emits_no_warning :
    updates (ReconcileVirtualService
        (setup [origin] (rejectingClient (Error.other "conflict"))) ownerObj desired).trace
      = [("default", desired)]
    ∧ ((rejectingClient (Error.other "conflict")).Update "default" desired).err
      = some (Error.other "conflict")
    ∧ (ReconcileVirtualService
        (setup [origin] (rejectingClient (Error.other "conflict"))) ownerObj desired).err
      = some (Error.other "conflict")
    ∧ events (ReconcileVirtualService
        (setup [origin] (rejectingClient (Error.other "conflict"))) ownerObj desired).trace
      = [] :=
  ⟨by decide, by decide, by decide, by decide⟩

/-- C8 (amended): whenever the write call the reconciler made fails with `e`,
the reconciler returns a nil object and the error `e`; if the failed call
was `Create` it also emits exactly one event, of type Warning with reason
"CreationFailed"; if the failed call was `Update` it emits no event. -/
theorem write_failure_warns_only_on_create (v : VirtualServiceAccessor) (owner : Owner)
    (d obj : VirtualService) (ns : String) (e : Error)
    (hfail : ((ns, obj) ∈ creates (ReconcileVirtualService v owner d).trace
        ∧ (v.SharedClientSet.Create ns obj).err = some e)
      ∨ ((ns, obj) ∈ updates (ReconcileVirtualService v owner d).trace
        ∧ (v.SharedClientSet.Update ns obj).err = some e)) :
    (ReconcileVirtualService v owner d).vs = none
    ∧ (ReconcileVirtualService v owner d).err = some e
    ∧ (((ns, obj) ∈ creates (ReconcileVirtualService v owner d).trace
        ∧ ∃ ev, events (ReconcileVirtualService v owner d).trace = [ev]
          ∧ ev.eventtype = "Warning" ∧ ev.reason = "CreationFailed")
      ∨ ((ns, obj) ∈ updates (ReconcileVirtualService v owner d).trace
        ∧ events (ReconcileVirtualService v owner d).trace = [])) := by
  unfold ReconcileVirtualService at hfail ⊢
  cases h1 : v.VirtualServiceLister.Get d.ObjectMeta.Namespace d.ObjectMeta.Name with
  | fail vs err =>
    simp only [h1] at hfail ⊢
    cases hnf : IsNotFound (some err) with
    | false => simp [hnf, creates, updates] at hfail
    | true =>
      simp only [hnf, if_true] at hfail ⊢
      cases hc : (v.SharedClientSet.Create d.ObjectMeta.Namespace d).err with
      | none =>
        simp only [hc, creates, updates, List.mem_singleton, Prod.mk.injEq, List.not_mem_nil,
          false_and, or_false] at hfail
        obtain ⟨⟨hns, hobj⟩, he⟩ := hfail
        subst hns hobj
        simp [hc] at he
      | some e1 =>
        simp only [hc, creates, updates, List.mem_singleton, Prod.mk.injEq, List.not_mem_nil,
          false_and, or_false] at hfail
        obtain ⟨⟨hns, hobj⟩, he⟩ := hfail
        subst hns hobj
        rw [hc] at he
        simp only [Option.some.injEq] at he
        subst he
        simp [creates, updates, events, EventTypeWarning]
  | ok obs =>
    simp only [h1] at hfail ⊢
    cases hown : IsControlledBy obs owner with
    | false => simp [hown, creates, updates] at hfail
    | true =>
      cases heq : SemanticDeepEqual obs.Spec d.Spec with
      | true => simp [hown, heq, creates, updates] at hfail
      | false =>
        simp only [hown, heq, Bool.not_true, Bool.not_false, Bool.false_eq_true, if_false,
          if_true] at hfail ⊢
        cases hu : (v.SharedClientSet.Update d.ObjectMeta.Namespace
            { DeepCopy obs with Spec := d.Spec }).err with
        | none =>
          simp only [hu, creates, updates, List.mem_singleton, Prod.mk.injEq, List.not_mem_nil,
            false_and, false_or] at hfail
          obtain ⟨⟨hns, hobj⟩, he⟩ := hfail
          subst hns hobj
          simp [hu] at he
        | some e1 =>
          simp only [hu, creates, updates, List.mem_singleton, Prod.mk.injEq, List.not_mem_nil,
            false_and, false_or] at hfail
          obtain ⟨⟨hns, hobj⟩, he⟩ := hfail
          subst hns hobj
          rw [hu] at he
          simp only [Option.some.injEq] at he
          subst he
          simp [creates, updates, events]

/-- Witness for C8 (amended): an empty store and a `Create` that fails. -/
theorem write_failure_warns_only_on_create_witness :
    (("default", desired) ∈ creates (ReconcileVirtualService
        (setup [] (rejectingClient (Error.other "quota"))) ownerObj desired).trace
      ∧ ((setup [] (rejectingClient (Error.other "quota"))).SharedClientSet.Create
          "default" desired).err = some (Error.other "quota"))
    ∧ (ReconcileVirtualService
        (setup [] (rejectingClient (Error.other "quota"))) ownerObj desired).vs = none
    ∧ (ReconcileVirtualService
        (setup [] (rejectingClient (Error.other "quota"))) ownerObj desired).err
      = some (Error.other "quota")
    ∧ ((("default", desired) ∈ creates (ReconcileVirtualService
          (setup [] (rejectingClient (Error.other "quota"))) ownerObj desired).trace
        ∧ ∃ ev, events (ReconcileVirtualService
            (setup [] (rejectingClient (Error.other "quota"))) ownerObj desired).trace = [ev]
          ∧ ev.eventtype = "Warning" ∧ ev.reason = "CreationFailed")
      ∨ (("default", desired) ∈ updates (ReconcileVirtualService
          (setup [] (rejectingClient (Error.other "quota"))) ownerObj desired).trace
        ∧ events (ReconcileVirtualService
          (setup [] (rejectingClient (Error.other "quota"))) ownerObj desired).trace = [])) :=
  ⟨⟨by decide, by decide⟩,
    write_failure_warns_only_on_create (setup [] (rejectingClient (Error.other "quota")))
      ownerObj desired desired "default" (Error.other "quota")
      (Or.inl ⟨by decide, by decide⟩)⟩

/-- C9 (create failure): when the lister reports not-found and `Create` fails
with `e`, the reconciler's effects are, in this order, the read, the `Create`
of the desired object, the error log line and one event of type Warning with
reason "CreationFailed" recorded before returning; that event is the only
one, `Update` is never called, and the result is a nil object together with
exactly `e`. -/
theorem reconcile_create_failure (v : VirtualServiceAccessor) (owner : Owner)
    (d : VirtualService) (vs : Option VirtualService) (e0 e : Error)
    (hget : v.VirtualServiceLister.Get d.ObjectMeta.Namespace d.ObjectMeta.Name
      = GetResult.fail vs e0)
    (hnf : IsNotFound (some e0) = true)
    (hcreate : (v.SharedClientSet.Create d.ObjectMeta.Namespace d).err = some e) :
    (ReconcileVirtualService v owner d).trace
      = [Effect.get d.ObjectMeta.Namespace d.ObjectMeta.Name,
          Effect.create d.ObjectMeta.Namespace d,
          Effect.log "Failed to create VirtualService" e,
          Effect.event ⟨owner, "Warning", "CreationFailed",
            "Failed to create VirtualService %q/%q: %v",
            [FmtArg.str d.ObjectMeta.Namespace, FmtArg.str d.ObjectMeta.Name, FmtArg.err e]⟩]
    ∧ (∃ ev, events (ReconcileVirtualService v owner d).trace = [ev]
        ∧ ev.eventtype = "Warning" ∧ ev.reason = "CreationFailed")
    ∧ updates (ReconcileVirtualService v owner d).trace = []
    ∧ (ReconcileVirtualService v owner d).vs = none
    ∧ (ReconcileVirtualService v owner d).err = some e := by
  unfold ReconcileVirtualService
  simp [hget, hnf, hcreate, updates, events, EventTypeWarning]

/-- Witness for C9: an empty store and a `Create` refused as already existing. -/
theorem reconcile_create_failure_witness :
    IsNotFound (some (notFound "vs")) = true
    ∧ ((setup [] (rejectingClient (Error.status "AlreadyExists" "vs"))).SharedClientSet.Create
        "default" desired).err = some (Error.status "AlreadyExists" "vs")
    ∧ (ReconcileVirtualService
        (setup [] (rejectingClient (Error.status "AlreadyExists" "vs"))) ownerObj desired).trace
      = [Effect.get "default" "vs", Effect.create "default" desired,
          Effect.log "Failed to create VirtualService" (Error.status "AlreadyExists" "vs"),
          Effect.event ⟨ownerObj, "Warning", "CreationFailed",
            "Failed to create VirtualService %q/%q: %v",
            [FmtArg.str "default", FmtArg.str "vs",
              FmtArg.err (Error.status "AlreadyExists" "vs")]⟩]
    ∧ (∃ ev, events (ReconcileVirtualService
          (setup [] (rejectingClient (Error.status "AlreadyExists" "vs"))) ownerObj desired).trace
          = [ev]
        ∧ ev.eventtype = "Warning" ∧ ev.reason = "CreationFailed")
    ∧ updates (ReconcileVirtualService
        (setup [] (rejectingClient (Error.status "AlreadyExists" "vs"))) ownerObj desired).trace
      = []
    ∧ (ReconcileVirtualService
        (setup [] (rejectingClient (Error.status "AlreadyExists" "vs"))) ownerObj desired).vs
      = none
    ∧ (ReconcileVirtualService
        (setup [] (rejectingClient (Error.status "AlreadyExists" "vs"))) ownerObj desired).err
      = some (Error.status "AlreadyExists" "vs") :=
  ⟨by decide, by decide,
    reconcile_create_failure (setup [] (rejectingClient (Error.status "AlreadyExists" "vs")))
      ownerObj desired none (notFound "vs") (Error.status "AlreadyExists" "vs")
      (by decide) (by decide) (by decide)⟩

/-- C10 (update failure): when the lister returns an observed object
controlled by `owner` whose spec is not semantically equal to the desired
spec and the `Update` of the copy carrying the desired spec fails with `e`,
the reconciler emits no event and returns a nil object together with exactly
`e`. -/
theorem reconcile_update_failure (v : VirtualServiceAccessor) (owner : Owner)
    (d obs : VirtualService) (e : Error)
    (hget : v.VirtualServiceLister.Get d.ObjectMeta.Namespace d.ObjectMeta.Name
      = GetResult.ok obs)
    (hown : IsControlledBy obs owner = true)
    (hne : SemanticDeepEqual obs.Spec d.Spec = false)
    (hupdate : (v.SharedClientSet.Update d.ObjectMeta.Namespace
      { DeepCopy obs with Spec := d.Spec }).err = some e) :
    events (ReconcileVirtualService v owner d).trace = []
    ∧ (ReconcileVirtualService v owner d).vs = none
    ∧ (ReconcileVirtualService v owner d).err = some e := by
  unfold ReconcileVirtualService
  simp [hget, hown, hne, hupdate, events]

/-- Witness for C10: the test's scenario (b) with an `Update` that fails. -/
theorem reconcile_update_failure_witness :
    IsControlledBy origin ownerObj = true
    ∧ SemanticDeepEqual origin.Spec desired.Spec = false
    ∧ events (ReconcileVirtualService
        (setup [origin] (rejectingClient (Error.status "Conflict" "vs"))) ownerObj desired).trace
      = []
    ∧ (ReconcileVirtualService
        (setup [origin] (rejectingClient (Error.status "Conflict" "vs"))) ownerObj desired).vs
      = none
    ∧ (ReconcileVirtualService
        (setup [origin] (rejectingClient (Error.status "Conflict" "vs"))) ownerObj desired).err
      = some (Error.status "Conflict" "vs") :=
  ⟨by decide, by decide,
    reconcile_update_failure (setup [origin] (rejectingClient (Error.status "Conflict" "vs")))
      ownerObj desired origin (Error.status "Conflict" "vs")
      (by decide) (by decide) (by decide) (by decide)⟩

/-- C11 (read error): when the lister fails with an error `e` that is not a
not-found error, the reconciler performs no `Create`, no `Update`, emits no
event, and returns a nil object together with exactly `e`. -/
theorem reconcile_read_error (v : VirtualServiceAccessor) (owner : Owner)
    (d : VirtualService) (vs : Option VirtualService) (e : Error)
    (hget : v.VirtualServiceLister.Get d.ObjectMeta.Namespace d.ObjectMeta.Name
      = GetResult.fail vs e)
    (hnf : IsNotFound (some e) = false) :
    creates (ReconcileVirtualService v owner d).trace = []
    ∧ updates (ReconcileVirtualService v owner d).trace = []
    ∧ events (ReconcileVirtualService v owner d).trace = []
    ∧ (ReconcileVirtualService v owner d).vs = none
    ∧ (ReconcileVirtualService v owner d).err = some e := by
  unfold ReconcileVirtualService
  simp [hget, hnf, creates, updates, events]

/-- Witness for C11: a lister whose cache has not synced yet. -/
theorem reconcile_read_error_witness :
    IsNotFound (some (Error.other "cache not synced")) = false
    ∧ creates (ReconcileVirtualService (unsynced acceptingClient) ownerObj desired).trace = []
    ∧ updates (ReconcileVirtualService (unsynced acceptingClient) ownerObj desired).trace = []
    ∧ events (ReconcileVirtualService (unsynced acceptingClient) ownerObj desired).trace = []
    ∧ (ReconcileVirtualService (unsynced acceptingClient) ownerObj desired).vs = none
    ∧ (ReconcileVirtualService (unsynced acceptingClient) ownerObj desired).err
      = some (Error.other "cache not synced") :=
  ⟨by decide,
    reconcile_read_error (unsynced acceptingClient) ownerObj desired none
      (Error.other "cache not synced") (by decide) (by decide)⟩

/-- C12 (one read, at most one write, at most one event, in that order): for
every accessor, owner and desired object, one call reads exactly once, calls
`Create` and `Update` at most once together, emits at most one event, and the
stages of its effects are strictly increasing along the trace: the read comes
before the write and the write before the event. -/
theorem reconcile_trace_shape (v : VirtualServiceAccessor) (owner : Owner)
    (d : VirtualService) :
    reads (ReconcileVirtualService v owner d).trace
      = [(d.ObjectMeta.Namespace, d.ObjectMeta.Name)]
    ∧ (creates (ReconcileVirtualService v owner d).trace).length
        + (updates (ReconcileVirtualService v owner d).trace).length ≤ 1
    ∧ (events (ReconcileVirtualService v owner d).trace).length ≤ 1
    ∧ List.Pairwise (fun a b => a < b)
        ((ReconcileVirtualService v owner d).trace.filterMap phase) := by
  unfold ReconcileVirtualService
  cases h1 : v.VirtualServiceLister.Get d.ObjectMeta.Namespace d.ObjectMeta.Name with
  | fail vs err =>
    simp only [h1]
    cases hnf : IsNotFound (some err) with
    | false => simp [hnf, reads, creates, updates, events, phase]
    | true =>
      cases hc : (v.SharedClientSet.Create d.ObjectMeta.Namespace d).err with
      | none => simp [hnf, reads, creates, updates, events, phase]
      | some e => simp [hnf, reads, creates, updates, events, phase]
  | ok obs =>
    simp only [h1]
    cases hown : IsControlledBy obs owner with
    | false => simp [hown, reads, creates, updates, events, phase]
    | true =>
      cases heq : SemanticDeepEqual obs.Spec d.Spec with
      | true => simp [hown, heq, reads, creates, updates, events, phase]
      | false =>
        cases hu : (v.SharedClientSet.Update d.ObjectMeta.Namespace
            { DeepCopy obs with Spec := d.Spec }).err with
        | none => simp [hown, heq, hu, reads, creates, updates, events, phase]
        | some e => simp [hown, heq, hu, reads, creates, updates, events, phase]

/-- The six paths through `ReconcileVirtualService`, each with the condition
that selects it and the result it produces. -/
theorem reconcile_paths (v : VirtualServiceAccessor) (owner : Owner) (d : VirtualService) :
    (∃ vs e, v.VirtualServiceLister.Get d.ObjectMeta.Namespace d.ObjectMeta.Name
        = GetResult.fail vs e
      ∧ IsNotFound (some e) = false
      ∧ ReconcileVirtualService v owner d
        = { vs := none, err := some e,
            trace := [Effect.get d.ObjectMeta.Namespace d.ObjectMeta.Name] })
    ∨ (∃ vs e0 e, v.VirtualServiceLister.Get d.ObjectMeta.Namespace d.ObjectMeta.Name
        = GetResult.fail vs e0
      ∧ IsNotFound (some e0) = true
      ∧ (v.SharedClientSet.Create d.ObjectMeta.Namespace d).err = some e
      ∧ ReconcileVirtualService v owner d
        = { vs := none, err := some e,
            trace := [Effect.get d.ObjectMeta.Namespace d.ObjectMeta.Name,
              Effect.create d.ObjectMeta.Namespace d,
              Effect.log "Failed to create VirtualService" e,
              Effect.event ⟨owner, "Warning", "CreationFailed",
                "Failed to create VirtualService %q/%q: %v",
                [FmtArg.str d.ObjectMeta.Namespace, FmtArg.str d.ObjectMeta.Name,
                  FmtArg.err e]⟩] })
    ∨ (∃ vs e0, v.VirtualServiceLister.Get d.ObjectMeta.Namespace d.ObjectMeta.Name
        = GetResult.fail vs e0
      ∧ IsNotFound (some e0) = true
      ∧ (v.SharedClientSet.Create d.ObjectMeta.Namespace d).err = none
      ∧ ReconcileVirtualService v owner d
        = { vs := vs, err := none,
            trace := [Effect.get d.ObjectMeta.Namespace d.ObjectMeta.Name,
              Effect.create d.ObjectMeta.Namespace d,
              Effect.event ⟨owner, "Normal", "Created", "Created VirtualService %q",
                [FmtArg.str d.ObjectMeta.Name]⟩] })
    ∨ (∃ obs, v.VirtualServiceLister.Get d.ObjectMeta.Namespace d.ObjectMeta.Name
        = GetResult.ok obs
      ∧ IsControlledBy obs owner = false
      ∧ ReconcileVirtualService v owner d = ownershipConflict owner d)
    ∨ (∃ obs, v.VirtualServiceLister.Get d.ObjectMeta.Namespace d.ObjectMeta.Name
        = GetResult.ok obs
      ∧ IsControlledBy obs owner = true
      ∧ SemanticDeepEqual obs.Spec d.Spec = true
      ∧ ReconcileVirtualService v owner d
        = { vs := some obs, err := none,
            trace := [Effect.get d.ObjectMeta.Namespace d.ObjectMeta.Name] })
    ∨ (∃ obs e, v.VirtualServiceLister.Get d.ObjectMeta.Namespace d.ObjectMeta.Name
        = GetResult.ok obs
      ∧ IsControlledBy obs owner = true
      ∧ SemanticDeepEqual obs.Spec d.Spec = false
      ∧ (v.SharedClientSet.Update d.ObjectMeta.Namespace
          { obs with Spec := d.Spec }).err = some e
      ∧ ReconcileVirtualService v owner d
        = { vs := none, err := some e,
            trace := [Effect.get d.ObjectMeta.Namespace d.ObjectMeta.Name,
              Effect.update d.ObjectMeta.Namespace { obs with Spec := d.Spec },
              Effect.log "Failed to update VirtualService" e] })
    ∨ (∃ obs, v.VirtualServiceLister.Get d.ObjectMeta.Namespace d.ObjectMeta.Name
        = GetResult.ok obs
      ∧ IsControlledBy obs owner = true
      ∧ SemanticDeepEqual obs.Spec d.Spec = false
      ∧ (v.SharedClientSet.Update d.ObjectMeta.Namespace
          { obs with Spec := d.Spec }).err = none
      ∧ ReconcileVirtualService v owner d
        = { vs := (v.SharedClientSet.Update d.ObjectMeta.Namespace
              { obs with Spec := d.Spec }).vs,
            err := none,
            trace := [Effect.get d.ObjectMeta.Namespace d.ObjectMeta.Name,
              Effect.update d.ObjectMeta.Namespace { obs with Spec := d.Spec },
              Effect.event ⟨owner, "Normal", "Updated",
                "Updated status for VirtualService %q/%q",
                [FmtArg.str d.ObjectMeta.Namespace, FmtArg.str d.ObjectMeta.Name]⟩] }) := by
  unfold ReconcileVirtualService ownershipConflict
  cases h1 : v.VirtualServiceLister.Get d.ObjectMeta.Namespace d.ObjectMeta.Name with
  | fail vs err =>
    simp only [h1]
    cases hnf : IsNotFound (some err) with
    | false => simp [hnf]
    | true =>
      cases hc : (v.SharedClientSet.Create d.ObjectMeta.Namespace d).err with
      | none =>
        refine Or.inr (Or.inr (Or.inl ⟨vs, err, rfl, hnf, ?_, ?_⟩)) <;>
          simp [hnf, EventTypeNormal]
      | some e =>
        refine Or.inr (Or.inl ⟨vs, err, e, rfl, hnf, ?_, ?_⟩) <;>
          simp [hnf, EventTypeWarning]
  | ok obs =>
    simp only [h1]
    cases hown : IsControlledBy obs owner with
    | false => simp [hown]
    | true =>
      cases heq : SemanticDeepEqual obs.Spec d.Spec with
      | true => simp [hown, heq]
      | false =>
        cases hu : (v.SharedClientSet.Update d.ObjectMeta.Namespace
            { DeepCopy obs with Spec := d.Spec }).err with
        | none =>
          simp only [DeepCopy] at hu
          simp [hown, heq, hu, DeepCopy, EventTypeNormal]
        | some e =>
          simp only [DeepCopy] at hu
          simp [hown, heq, hu, DeepCopy]

/-- C13 (counterexample): with an empty store the reconciler submits to
`Create` a desired object that carries no owner reference at all, hence none
that marks the owner as controller. -/
theorem create_submits_unowned_desired :
    creates (ReconcileVirtualService (setup [] acceptingClient) ownerObj orphan).trace
      = [("default", orphan)]
    ∧ orphan.ObjectMeta.OwnerReferences = []
    ∧ IsControlledBy orphan ownerObj = false
    ∧ ownedPerSpec orphan ownerObj = false :=
  ⟨by decide, by decide, by decide, by decide⟩

/-- C13 (amended): whenever the reconciler invokes `Create`, the object it
submits is the desired object itself, owner references untouched; so the
submitted object marks the owner as controller whenever the desired object
handed in by the caller does (the reconciler neither checks nor adds the
reference). -/
theorem create_submits_desired_as_given (v : VirtualServiceAccessor) (owner : Owner)
    (d obj : VirtualService) (ns : String)
    (hmem : (ns, obj) ∈ creates (ReconcileVirtualService v owner d).trace) :
    obj = d
    ∧ obj.ObjectMeta.OwnerReferences = d.ObjectMeta.OwnerReferences
    ∧ (IsControlledBy d owner = true → IsControlledBy obj owner = true)
    ∧ (ownedPerSpec d owner = true → ownedPerSpec obj owner = true) := by
  have hobj : obj = d := by
    rcases reconcile_paths v owner d with
      ⟨_, _, _, _, hR⟩ | ⟨_, _, _, _, _, _, hR⟩ | ⟨_, _, _, _, _, hR⟩ | ⟨_, _, _, hR⟩
        | ⟨_, _, _, _, hR⟩ | ⟨_, _, _, _, _, _, hR⟩ | ⟨_, _, _, _, _, hR⟩ <;>
      rw [hR] at hmem <;> simp [creates, ownershipConflict] at hmem
    · exact hmem.2
    · exact hmem.2
  subst hobj
  exact ⟨rfl, rfl, id, id⟩

/-- Witness for C13 (amended): the test's scenario (a). -/
theorem create_submits_desired_as_given_witness :
    ("default", desired)
      ∈ creates (ReconcileVirtualService (setup [] acceptingClient) ownerObj desired).trace
    ∧ IsControlledBy desired ownerObj = true
    ∧ ownedPerSpec desired ownerObj = true
    ∧ desired = desired
    ∧ desired.ObjectMeta.OwnerReferences = desired.ObjectMeta.OwnerReferences
    ∧ IsControlledBy desired ownerObj = true
    ∧ ownedPerSpec desired ownerObj = true :=
  have h := create_submits_desired_as_given (setup [] acceptingClient) ownerObj desired desired
    "default" (by decide)
  ⟨by decide, by decide, by decide, h.1, h.2.1, h.2.2.1 (by decide), h.2.2.2 (by decide)⟩

/-- C14 (error propagation): the reconciler returns a non-nil error exactly
when the lister failed with an error that is not a not-found, or the observed
object is not controlled by the owner, or the `Create` or `Update` call it
made failed; a non-nil error always comes with a nil object; and the error of
a failed read or write is the error returned. -/
theorem reconcile_error_iff (v : VirtualServiceAccessor) (owner : Owner) (d : VirtualService) :
    ((ReconcileVirtualService v owner d).err ≠ none ↔
      ((∃ vs e, v.VirtualServiceLister.Get d.ObjectMeta.Namespace d.ObjectMeta.Name
            = GetResult.fail vs e ∧ IsNotFound (some e) = false)
        ∨ (∃ obs, v.VirtualServiceLister.Get d.ObjectMeta.Namespace d.ObjectMeta.Name
            = GetResult.ok obs ∧ IsControlledBy obs owner = false)
        ∨ (∃ ns obj, (ns, obj) ∈ creates (ReconcileVirtualService v owner d).trace
            ∧ (v.SharedClientSet.Create ns obj).err ≠ none)
        ∨ (∃ ns obj, (ns, obj) ∈ updates (ReconcileVirtualService v owner d).trace
            ∧ (v.SharedClientSet.Update ns obj).err ≠ none)))
    ∧ ((ReconcileVirtualService v owner d).err ≠ none →
        (ReconcileVirtualService v owner d).vs = none)
    ∧ (∀ vs e, v.VirtualServiceLister.Get d.ObjectMeta.Namespace d.ObjectMeta.Name
          = GetResult.fail vs e → IsNotFound (some e) = false →
        (ReconcileVirtualService v owner d).err = some e)
    ∧ (∀ ns obj e, (ns, obj) ∈ creates (ReconcileVirtualService v owner d).trace →
        (v.SharedClientSet.Create ns obj).err = some e →
        (ReconcileVirtualService v owner d).err = some e)
    ∧ (∀ ns obj e, (ns, obj) ∈ updates (ReconcileVirtualService v owner d).trace →
        (v.SharedClientSet.Update ns obj).err = some e →
        (ReconcileVirtualService v owner d).err = some e) := by
  rcases reconcile_paths v owner d with
    ⟨vs, e, hg, hnf, hR⟩ | ⟨vs, e0, e, hg, hnf, hw, hR⟩ | ⟨vs, e0, hg, hnf, hw, hR⟩
      | ⟨obs, hg, hown, hR⟩ | ⟨obs, hg, hown, heq, hR⟩ | ⟨obs, e, hg, hown, heq, hw, hR⟩
      | ⟨obs, hg, hown, heq, hw, hR⟩
  · rw [hR]
    refine ⟨⟨fun _ => Or.inl ⟨vs, e, hg, hnf⟩, fun _ => by simp⟩, fun _ => rfl, ?_, ?_, ?_⟩
    · intro vs1 e1 hg1 _
      rw [hg] at hg1
      cases hg1
      rfl
    · simp [creates]
    · simp [updates]
  · rw [hR]
    refine ⟨⟨fun _ => Or.inr (Or.inr (Or.inl ⟨d.ObjectMeta.Namespace, d, ?_, ?_⟩)),
      fun _ => by simp⟩, fun _ => rfl, ?_, ?_, ?_⟩
    · simp [creates]
    · simp [hw]
    · intro vs1 e1 hg1 hnf1
      rw [hg] at hg1
      cases hg1
      simp [hnf] at hnf1
    · intro ns obj e1 hmem he1
      simp only [creates, List.mem_singleton, Prod.mk.injEq] at hmem
      obtain ⟨hns, hobj⟩ := hmem
      subst hns hobj
      rw [hw] at he1
      exact he1
    · simp [updates]
  · rw [hR]
    refine ⟨⟨fun h => absurd rfl h, ?_⟩, fun h => absurd rfl h, ?_, ?_, ?_⟩
    · rintro (⟨vs1, e1, hg1, hnf1⟩ | ⟨obs, hg1, _⟩ | ⟨ns, obj, hmem, he1⟩ | ⟨ns, obj, hmem, _⟩)
      · rw [hg] at hg1
        cases hg1
        simp [hnf] at hnf1
      · rw [hg] at hg1
        cases hg1
      · simp only [creates, List.mem_singleton, Prod.mk.injEq] at hmem
        obtain ⟨hns, hobj⟩ := hmem
        subst hns hobj
        exact absurd hw he1
      · simp [updates] at hmem
    · intro vs1 e1 hg1 hnf1
      rw [hg] at hg1
      cases hg1
      simp [hnf] at hnf1
    · intro ns obj e1 hmem he1
      simp only [creates, List.mem_singleton, Prod.mk.injEq] at hmem
      obtain ⟨hns, hobj⟩ := hmem
      subst hns hobj
      simp [hw] at he1
    · simp [updates]
  · rw [hR]
    refine ⟨⟨fun _ => Or.inr (Or.inl ⟨obs, hg, hown⟩), fun _ => by simp [ownershipConflict]⟩,
      fun _ => rfl, ?_, ?_, ?_⟩
    · intro vs1 e1 hg1 _
      rw [hg] at hg1
      cases hg1
    · simp [creates, ownershipConflict]
    · simp [updates, ownershipConflict]
  · rw [hR]
    refine ⟨⟨fun h => absurd rfl h, ?_⟩, fun h => absurd rfl h, ?_, ?_, ?_⟩
    · rintro (⟨vs1, e1, hg1, _⟩ | ⟨obs1, hg1, hown1⟩ | ⟨ns, obj, hmem, _⟩ | ⟨ns, obj, hmem, _⟩)
      · rw [hg] at hg1
        cases hg1
      · rw [hg] at hg1
        cases hg1
        simp [hown] at hown1
      · simp [creates] at hmem
      · simp [updates] at hmem
    · intro vs1 e1 hg1 _
      rw [hg] at hg1
      cases hg1
    · simp [creates]
    · simp [updates]
  · rw [hR]
    refine ⟨⟨fun _ => Or.inr (Or.inr (Or.inr
      ⟨d.ObjectMeta.Namespace, { obs with Spec := d.Spec }, ?_, ?_⟩)),
      fun _ => by simp⟩, fun _ => rfl, ?_, ?_, ?_⟩
    · simp [updates]
    · simp [hw]
    · intro vs1 e1 hg1 _
      rw [hg] at hg1
      cases hg1
    · simp [creates]
    · intro ns obj e1 hmem he1
      simp only [updates, List.mem_singleton, Prod.mk.injEq] at hmem
      obtain ⟨hns, hobj⟩ := hmem
      subst hns hobj
      rw [hw] at he1
      exact he1
  · rw [hR]
    refine ⟨⟨fun h => absurd rfl h, ?_⟩, fun h => absurd rfl h, ?_, ?_, ?_⟩
    · rintro (⟨vs1, e1, hg1, _⟩ | ⟨obs1, hg1, hown1⟩ | ⟨ns, obj, hmem, _⟩ | ⟨ns, obj, hmem, he1⟩)
      · rw [hg] at hg1
        cases hg1
      · rw [hg] at hg1
        cases hg1
        simp [hown] at hown1
      · simp [creates] at hmem
      · simp only [updates, List.mem_singleton, Prod.mk.injEq] at hmem
        obtain ⟨hns, hobj⟩ := hmem
        subst hns hobj
        exact absurd hw he1
    · intro vs1 e1 hg1 _
      rw [hg] at hg1
      cases hg1
    · simp [creates]
    · intro ns obj e1 hmem he1
      simp only [updates, List.mem_singleton, Prod.mk.injEq] at hmem
      obtain ⟨hns, hobj⟩ := hmem
      subst hns hobj
      simp [hw] at he1

/-- C16 (ownership before equality): when the observed object is not
controlled by the owner, the reconciler stops with the ownership conflict
even if the observed spec is semantically equal to the desired spec: the
error is non-nil, no object is returned (in particular not the observed
one), and nothing is written. -/
theorem reconcile_foreign_equal_is_conflict (v : VirtualServiceAccessor) (owner : Owner)
    (d obs : VirtualService)
    (hget : v.VirtualServiceLister.Get d.ObjectMeta.Namespace d.ObjectMeta.Name
      = GetResult.ok obs)
    (hnot : IsControlledBy obs owner = false)
    (_heq : SemanticDeepEqual obs.Spec d.Spec = true) :
    ReconcileVirtualService v owner d = ownershipConflict owner d
    ∧ (ReconcileVirtualService v owner d).err ≠ none
    ∧ (ReconcileVirtualService v owner d).vs ≠ some obs
    ∧ creates (ReconcileVirtualService v owner d).trace = []
    ∧ updates (ReconcileVirtualService v owner d).trace = [] := by
  have hR : ReconcileVirtualService v owner d = ownershipConflict owner d := by
    unfold ReconcileVirtualService ownershipConflict
    simp [hget, hnot]
  rw [hR]
  simp [ownershipConflict, creates, updates]

/-- Witness for C16: the store holds `orphan`, whose spec is the desired spec
and which carries no owner reference. -/
theorem reconcile_foreign_equal_is_conflict_witness :
    IsControlledBy orphan ownerObj = false
    ∧ SemanticDeepEqual orphan.Spec desired.Spec = true
    ∧ ReconcileVirtualService (setup [orphan] acceptingClient) ownerObj desired
      = ownershipConflict ownerObj desired
    ∧ (ReconcileVirtualService (setup [orphan] acceptingClient) ownerObj desired).err ≠ none
    ∧ (ReconcileVirtualService (setup [orphan] acceptingClient) ownerObj desired).vs
      ≠ some orphan
    ∧ creates (ReconcileVirtualService (setup [orphan] acceptingClient) ownerObj desired).trace
      = []
    ∧ updates (ReconcileVirtualService (setup [orphan] acceptingClient) ownerObj desired).trace
      = [] :=
  ⟨by decide, by decide,
    reconcile_foreign_equal_is_conflict (setup [orphan] acceptingClient) ownerObj desired orphan
      (by decide) (by decide) (by decide)⟩

/-- C17 (the decision ignores status and metadata): for two observed objects
with equal spec and equal owner references, whatever their status and other
metadata, reconciling the same owner and desired object takes the same path:
both stop with the ownership conflict, or both are no-ops returning the
observed object, or both call `Update` once with their copy carrying the
desired spec; neither calls `Create`. -/
theorem decision_ignores_status_and_metadata (v1 v2 : VirtualServiceAccessor) (owner : Owner)
    (d obs1 obs2 : VirtualService)
    (hget1 : v1.VirtualServiceLister.Get d.ObjectMeta.Namespace d.ObjectMeta.Name
      = GetResult.ok obs1)
    (hget2 : v2.VirtualServiceLister.Get d.ObjectMeta.Namespace d.ObjectMeta.Name
      = GetResult.ok obs2)
    (hspec : obs1.Spec = obs2.Spec)
    (hrefs : obs1.ObjectMeta.OwnerReferences = obs2.ObjectMeta.OwnerReferences) :
    (ReconcileVirtualService v1 owner d = ownershipConflict owner d
      ↔ ReconcileVirtualService v2 owner d = ownershipConflict owner d)
    ∧ (ReconcileVirtualService v1 owner d
        = { vs := some obs1, err := none,
            trace := [Effect.get d.ObjectMeta.Namespace d.ObjectMeta.Name] }
      ↔ ReconcileVirtualService v2 owner d
        = { vs := some obs2, err := none,
            trace := [Effect.get d.ObjectMeta.Namespace d.ObjectMeta.Name] })
    ∧ (updates (ReconcileVirtualService v1 owner d).trace
        = [(d.ObjectMeta.Namespace, { obs1 with Spec := d.Spec })]
      ↔ updates (ReconcileVirtualService v2 owner d).trace
        = [(d.ObjectMeta.Namespace, { obs2 with Spec := d.Spec })])
    ∧ (updates (ReconcileVirtualService v1 owner d).trace = []
      ↔ updates (ReconcileVirtualService v2 owner d).trace = [])
    ∧ creates (ReconcileVirtualService v1 owner d).trace = []
    ∧ creates (ReconcileVirtualService v2 owner d).trace = [] := by
  have hc : IsControlledBy obs1 owner = IsControlledBy obs2 owner := by
    simp [IsControlledBy, GetControllerOf, hrefs]
  have hs : SemanticDeepEqual obs1.Spec d.Spec = SemanticDeepEqual obs2.Spec d.Spec := by
    rw [hspec]
  unfold ReconcileVirtualService ownershipConflict
  simp only [hget1, hget2, hc, hs, DeepCopy]
  cases hown : IsControlledBy obs2 owner with
  | false => simp [creates, updates]
  | true =>
    cases heq : SemanticDeepEqual obs2.Spec d.Spec with
    | true => simp [creates, updates]
    | false =>
      cases hu1 : (v1.SharedClientSet.Update d.ObjectMeta.Namespace
          { obs1 with Spec := d.Spec }).err <;>
        cases hu2 : (v2.SharedClientSet.Update d.ObjectMeta.Namespace
          { obs2 with Spec := d.Spec }).err <;>
        simp [creates, updates]

/-- Witness for C17: the test's `origin` and the same object after status
and metadata churn; both are updated. -/
theorem decision_ignores_status_and_metadata_witness :
    origin.Spec = originChurned.Spec
    ∧ origin.ObjectMeta.OwnerReferences = originChurned.ObjectMeta.OwnerReferences
    ∧ origin ≠ originChurned
    ∧ (ReconcileVirtualService (setup [origin] acceptingClient) ownerObj desired
        = ownershipConflict ownerObj desired
      ↔ ReconcileVirtualService (setup [originChurned] acceptingClient) ownerObj desired
        = ownershipConflict ownerObj desired)
    ∧ (ReconcileVirtualService (setup [origin] acceptingClient) ownerObj desired
        = { vs := some origin, err := none, trace := [Effect.get "default" "vs"] }
      ↔ ReconcileVirtualService (setup [originChurned] acceptingClient) ownerObj desired
        = { vs := some originChurned, err := none, trace := [Effect.get "default" "vs"] })
    ∧ (updates (ReconcileVirtualService (setup [origin] acceptingClient) ownerObj desired).trace
        = [("default", { origin with Spec := desired.Spec })]
      ↔ updates
          (ReconcileVirtualService (setup [originChurned] acceptingClient) ownerObj desired).trace
        = [("default", { originChurned with Spec := desired.Spec })])
    ∧ (updates (ReconcileVirtualService (setup [origin] acceptingClient) ownerObj desired).trace
        = []
      ↔ updates
          (ReconcileVirtualService (setup [originChurned] acceptingClient) ownerObj desired).trace
        = [])
    ∧ creates (ReconcileVirtualService (setup [origin] acceptingClient) ownerObj desired).trace
      = []
    ∧ creates
        (ReconcileVirtualService (setup [originChurned] acceptingClient) ownerObj desired).trace
      = [] :=
  ⟨by decide, by decide, by decide,
    decision_ignores_status_and_metadata (setup [origin] acceptingClient)
      (setup [originChurned] acceptingClient) ownerObj desired origin originChurned
      (by decide) (by decide) (by decide) (by decide)⟩

/-- C18 (event subject and reasons): every event the reconciler emits is
recorded against the owner, and its reason is "Created", "CreationFailed" or
"Updated". -/
theorem events_are_about_owner (v : VirtualServiceAccessor) (owner : Owner)
    (d : VirtualService) (ev : Event)
    (hmem : ev ∈ events (ReconcileVirtualService v owner d).trace) :
    ev.object = owner
    ∧ (ev.reason = "Created" ∨ ev.reason = "CreationFailed" ∨ ev.reason = "Updated") := by
  rcases reconcile_paths v owner d with
    ⟨_, _, _, _, hR⟩ | ⟨_, _, _, _, _, _, hR⟩ | ⟨_, _, _, _, _, hR⟩ | ⟨_, _, _, hR⟩
      | ⟨_, _, _, _, hR⟩ | ⟨_, _, _, _, _, _, hR⟩ | ⟨_, _, _, _, _, hR⟩ <;>
    rw [hR] at hmem <;> simp [events, ownershipConflict] at hmem <;> subst hmem <;> simp

/-- Witness for C18: the "Created" event of the test's scenario (a). -/
theorem events_are_about_owner_witness :
    (⟨ownerObj, "Normal", "Created", "Created VirtualService %q", [FmtArg.str "vs"]⟩ : Event)
      ∈ events (ReconcileVirtualService (setup [] acceptingClient) ownerObj desired).trace
    ∧ (⟨ownerObj, "Normal", "Created", "Created VirtualService %q", [FmtArg.str "vs"]⟩
        : Event).object = ownerObj
    ∧ ((⟨ownerObj, "Normal", "Created", "Created VirtualService %q", [FmtArg.str "vs"]⟩
          : Event).reason = "Created"
      ∨ (⟨ownerObj, "Normal", "Created", "Created VirtualService %q", [FmtArg.str "vs"]⟩
          : Event).reason = "CreationFailed"
      ∨ (⟨ownerObj, "Normal", "Created", "Created VirtualService %q", [FmtArg.str "vs"]⟩
          : Event).reason = "Updated") :=
  ⟨by decide,
    events_are_about_owner (setup [] acceptingClient) ownerObj desired
      ⟨ownerObj, "Normal", "Created", "Created VirtualService %q", [FmtArg.str "vs"]⟩
      (by decide)⟩

/-- Allocation leaves every object already on the heap as it was. -/
theorem alloc_frame (h : Heap) (o : VirtualService) (p : Nat) (hp : p < h.length) :
    (alloc h o).2[p]? = h[p]? := by
  unfold alloc
  exact List.getElem?_append_left hp

/-- The freshly allocated pointer points at the allocated object. -/
theorem alloc_fresh (h : Heap) (o : VirtualService) :
    (alloc h o).2[(alloc h o).1]? = some o := by
  unfold alloc
  exact List.getElem?_concat_length h o

/-- The allocation of a client result leaves every object already on the heap
as it was. -/
theorem allocResult_frame (h : Heap) (o : Option VirtualService) (p : Nat)
    (hp : p < h.length) : (allocResult h o).2[p]? = h[p]? := by
  unfold allocResult
  cases o with
  | none => rfl
  | some x => exact List.getElem?_append_left hp

/-- A store into the object at `q` leaves the object at any other pointer as
it was. -/
theorem storeSpec_frame (h : Heap) (q p : Nat) (spec : VirtualServiceSpec) (hne : q ≠ p) :
    (storeSpec h q spec)[p]? = h[p]? := by
  unfold storeSpec
  cases h[q]? with
  | none => rfl
  | some o => exact List.getElem?_set_ne hne

/-- A store does not change the size of the heap. -/
theorem storeSpec_length (h : Heap) (q : Nat) (spec : VirtualServiceSpec) :
    (storeSpec h q spec).length = h.length := by
  unfold storeSpec
  cases h[q]? with
  | none => rfl
  | some o => simp

/-- The store of line 50 on the heap: after `existing := vs.DeepCopy()` and
`existing.Spec = desired.Spec` the fresh pointer points at the observed
object with the desired spec, and every older object is as it was. -/
theorem copy_then_store (h : Heap) (obs : VirtualService) (spec : VirtualServiceSpec) :
    (storeSpec (alloc h (DeepCopy obs)).2 (alloc h (DeepCopy obs)).1 spec)[h.length]?
      = some { obs with Spec := spec }
    ∧ ∀ p, p < h.length →
      (storeSpec (alloc h (DeepCopy obs)).2 (alloc h (DeepCopy obs)).1 spec)[p]? = h[p]? := by
  constructor
  · have hfresh := alloc_fresh h (DeepCopy obs)
    unfold storeSpec
    rw [hfresh]
    simp [alloc, DeepCopy]
  · intro p hp
    rw [storeSpec_frame _ _ _ _ (by simp only [alloc]; omega)]
    exact alloc_frame h _ p hp

/-- C15 (no mutation of the caller's or the lister's object): run on a heap
where `desired` points at `d` and the lister's pointer is valid, the
reconciler returns, and in the heap it leaves behind every object that
existed before the call is unchanged, in particular the desired object and
the observed object the lister returned; on the update path the desired spec
is stored into the fresh copy only, which sits at a new pointer. -/
theorem reconcile_mutates_no_existing_object (get : String → String → GetPtr)
    (client : ClientSet) (owner : Owner) (desired : Nat) (h : Heap) (d : VirtualService)
    (hd : h[desired]? = some d)
    (hobs : ∀ p, get d.ObjectMeta.Namespace d.ObjectMeta.Name = GetPtr.ok p → p < h.length) :
    ∃ r, ReconcileVirtualServiceOnHeap get client owner desired h = some r
      ∧ (∀ p, p < h.length → r.heap[p]? = h[p]?)
      ∧ r.heap[desired]? = some d
      ∧ (∀ p, get d.ObjectMeta.Namespace d.ObjectMeta.Name = GetPtr.ok p →
          r.heap[p]? = h[p]?)
      ∧ (∀ p obs, get d.ObjectMeta.Namespace d.ObjectMeta.Name = GetPtr.ok p →
          h[p]? = some obs → IsControlledBy obs owner = true →
          SemanticDeepEqual obs.Spec d.Spec = false →
          r.heap[h.length]? = some { obs with Spec := d.Spec }) := by
  have hdlt : desired < h.length := by
    obtain ⟨hlt, _⟩ := List.getElem?_eq_some.mp hd
    exact hlt
  have key : ∃ r, ReconcileVirtualServiceOnHeap get client owner desired h = some r
      ∧ (∀ p, p < h.length → r.heap[p]? = h[p]?)
      ∧ (∀ p obs, get d.ObjectMeta.Namespace d.ObjectMeta.Name = GetPtr.ok p →
          h[p]? = some obs → IsControlledBy obs owner = true →
          SemanticDeepEqual obs.Spec d.Spec = false →
          r.heap[h.length]? = some { obs with Spec := d.Spec }) := by
    unfold ReconcileVirtualServiceOnHeap
    simp only [hd]
    cases hg : get d.ObjectMeta.Namespace d.ObjectMeta.Name with
    | fail vs err =>
      simp only []
      cases hnf : IsNotFound (some err) with
      | false =>
        simp only [Bool.false_eq_true, if_false, if_true, Bool.not_true, Bool.not_false]
        refine ⟨_, rfl, fun p _ => rfl, ?_⟩
        intro p obs hp
        cases hp
      | true =>
        cases hc : (client.Create d.ObjectMeta.Namespace d).err with
        | none =>
          simp only [Bool.false_eq_true, if_false, if_true, Bool.not_true, Bool.not_false]
          refine ⟨_, rfl, fun p hp => allocResult_frame h _ p hp, ?_⟩
          intro p obs hp
          cases hp
        | some e =>
          simp only [Bool.false_eq_true, if_false, if_true, Bool.not_true, Bool.not_false]
          refine ⟨_, rfl, fun p hp => allocResult_frame h _ p hp, ?_⟩
          intro p obs hp
          cases hp
    | ok q =>
      simp only []
      have hq : q < h.length := hobs q hg
      have hqe : h[q]? = some h[q] := List.getElem?_eq_getElem hq
      simp only [hqe]
      cases hown : IsControlledBy h[q] owner with
      | false =>
        simp only [Bool.false_eq_true, if_false, if_true, Bool.not_true, Bool.not_false]
        refine ⟨_, rfl, fun p _ => rfl, ?_⟩
        intro p obs hp hpo ho
        cases hp
        rw [hqe] at hpo
        cases hpo
        rw [hown] at ho
        cases ho
      | true =>
        cases heq : SemanticDeepEqual h[q].Spec d.Spec with
        | true =>
          simp only [Bool.false_eq_true, if_false, if_true, Bool.not_true, Bool.not_false]
          refine ⟨_, rfl, fun p _ => rfl, ?_⟩
          intro p obs hp hpo _ hne
          cases hp
          rw [hqe] at hpo
          cases hpo
          rw [heq] at hne
          cases hne
        | false =>
          have hd1 : (alloc h (DeepCopy h[q])).2[desired]? = some d := by
            rw [alloc_frame h _ desired hdlt]
            exact hd
          obtain ⟨hcopy, hframe⟩ := copy_then_store h h[q] d.Spec
          have hex : (alloc h (DeepCopy h[q])).1 = h.length := rfl
          have hlen : h.length < (storeSpec (alloc h (DeepCopy h[q])).2
              (alloc h (DeepCopy h[q])).1 d.Spec).length := by
            rw [storeSpec_length]
            simp [alloc]
          simp only [Bool.not_true, Bool.not_false, Bool.false_eq_true, if_false, if_true, hd1]
          rw [hex] at hcopy hframe hlen ⊢
          simp only [hcopy]
          cases hu : (client.Update d.ObjectMeta.Namespace
              { h[q] with Spec := d.Spec }).err with
          | none =>
            refine ⟨_, rfl, ?_, ?_⟩
            · intro p hp
              rw [allocResult_frame _ _ p (by omega)]
              exact hframe p hp
            · intro p obs hp hpo _ _
              cases hp
              rw [hqe] at hpo
              cases hpo
              rw [allocResult_frame _ _ _ hlen]
              exact hcopy
          | some e =>
            refine ⟨_, rfl, ?_, ?_⟩
            · intro p hp
              rw [allocResult_frame _ _ p (by omega)]
              exact hframe p hp
            · intro p obs hp hpo _ _
              cases hp
              rw [hqe] at hpo
              cases hpo
              rw [allocResult_frame _ _ _ hlen]
              exact hcopy
  obtain ⟨r, hr, hframe, hcopy⟩ := key
  refine ⟨r, hr, hframe, ?_, ?_, hcopy⟩
  · rw [hframe desired hdlt]
    exact hd
  · intro p hp
    exact hframe p (hobs p hp)

/-- Witness for C15: the test's scenario (b) on a heap holding `desired` at
pointer 0 and the cached `origin` at pointer 1. -/
theorem reconcile_mutates_no_existing_object_witness :
    testHeap[0]? = some desired
    ∧ ∃ r, ReconcileVirtualServiceOnHeap testHeapLister acceptingClient ownerObj 0 testHeap
        = some r
      ∧ (∀ p, p < testHeap.length → r.heap[p]? = testHeap[p]?)
      ∧ r.heap[0]? = some desired
      ∧ (∀ p, testHeapLister desired.ObjectMeta.Namespace desired.ObjectMeta.Name
            = GetPtr.ok p → r.heap[p]? = testHeap[p]?)
      ∧ (∀ p obs, testHeapLister desired.ObjectMeta.Namespace desired.ObjectMeta.Name
            = GetPtr.ok p →
          testHeap[p]? = some obs → IsControlledBy obs ownerObj = true →
          SemanticDeepEqual obs.Spec desired.Spec = false →
          r.heap[testHeap.length]? = some { obs with Spec := desired.Spec }) :=
  ⟨rfl,
    reconcile_mutates_no_existing_object testHeapLister acceptingClient ownerObj 0 testHeap
      desired rfl (fun p hp => by cases hp; decide)⟩

/-- The two embeddings agree: when the pointers handed to the heap-level
reconciler point at the values handed to the value-level one, the heap-level
call returns, with the same error, and its returned pointer points at the
object the value-level call returns. -/
theorem onHeap_refines (v : VirtualServiceAccessor) (get : String → String → GetPtr)
    (owner : Owner) (desired : Nat) (h : Heap) (d : VirtualService)
    (hd : h[desired]? = some d)
    (hget : derefGet h (get d.ObjectMeta.Namespace d.ObjectMeta.Name)
      = some (v.VirtualServiceLister.Get d.ObjectMeta.Namespace d.ObjectMeta.Name)) :
    ∃ r, ReconcileVirtualServiceOnHeap get v.SharedClientSet owner desired h = some r
      ∧ r.err = (ReconcileVirtualService v owner d).err
      ∧ r.vs.bind (fun p => r.heap[p]?) = (ReconcileVirtualService v owner d).vs := by
  have hdlt : desired < h.length := by
    obtain ⟨hlt, _⟩ := List.getElem?_eq_some.mp hd
    exact hlt
  unfold ReconcileVirtualServiceOnHeap ReconcileVirtualService
  simp only [hd]
  cases hg : get d.ObjectMeta.Namespace d.ObjectMeta.Name with
  | fail vs err =>
    rw [hg] at hget
    cases vs with
    | none =>
      simp only [derefGet, Option.some.injEq] at hget
      rw [← hget]
      simp only []
      cases hnf : IsNotFound (some err) with
      | false => simp
      | true =>
        cases hc : (v.SharedClientSet.Create d.ObjectMeta.Namespace d).err <;> simp
    | some q =>
      simp only [derefGet] at hget
      cases hq : h[q]? with
      | none => simp [hq] at hget
      | some o =>
        have hqlt : q < h.length := by
          obtain ⟨hlt, _⟩ := List.getElem?_eq_some.mp hq
          exact hlt
        simp only [hq, Option.map_some', Option.some.injEq] at hget
        rw [← hget]
        simp only []
        cases hnf : IsNotFound (some err) with
        | false => simp
        | true =>
          cases hc : (v.SharedClientSet.Create d.ObjectMeta.Namespace d).err <;>
            simp [allocResult_frame h _ q hqlt, hq]
  | ok q =>
    rw [hg] at hget
    simp only [derefGet] at hget
    cases hq : h[q]? with
    | none => simp [hq] at hget
    | some obs =>
      simp only [hq, Option.map_some', Option.some.injEq] at hget
      rw [← hget]
      simp only [hq]
      cases hown : IsControlledBy obs owner with
      | false => simp
      | true =>
        cases heq : SemanticDeepEqual obs.Spec d.Spec with
        | true => simp [hq]
        | false =>
          have hd1 : (alloc h (DeepCopy obs)).2[desired]? = some d := by
            rw [alloc_frame h _ desired hdlt]
            exact hd
          obtain ⟨hcopy, _⟩ := copy_then_store h obs d.Spec
          have hex : (alloc h (DeepCopy obs)).1 = h.length := rfl
          simp only [Bool.not_true, Bool.not_false, Bool.false_eq_true, if_false, if_true, hd1]
          rw [hex] at hcopy ⊢
          simp only [DeepCopy] at hcopy ⊢
          simp only [hcopy]
          cases hu : (v.SharedClientSet.Update d.ObjectMeta.Namespace
              { obs with Spec := d.Spec }).err with
          | some e => simp
          | none =>
            simp only [Option.some.injEq, exists_eq_left', true_and]
            cases hw : (v.SharedClientSet.Update d.ObjectMeta.Namespace
                { obs with Spec := d.Spec }).vs with
            | none => simp [allocResult]
            | some x => simp [allocResult]

end Istio
